import Mathlib

/-!
Verification of the session-analytics core of the trading-agent repository:
the activity/turn tracker (`activity_tracker.py`) and the text-pattern
extractor (`trading_agent.py`), embedded shallowly.  Python's implicit
clock (`datetime.now(timezone.utc).isoformat()`) is modelled by passing the
produced timestamp string explicitly to every operation that reads the clock.
-/

set_option autoImplicit false

namespace TradingAgent

/-- Shallow model of the dynamically-typed Python values (`Any`) that flow
through tool inputs and tool results.  Python floats are modelled exactly as
rationals; dicts as insertion-ordered association lists with string keys
(the only key type the agent runtime produces). -/
inductive PyVal where
  | vnone
  | vbool (b : Bool)
  | vint (n : Int)
  | vrat (q : Rat)
  | vstr (s : String)
  | vlist (xs : List PyVal)
  | vdict (entries : List (String × PyVal))
deriving Repr

/-- A Python dict with string keys, as used for `tool_input`. -/
abbrev PyDict := List (String × PyVal)

mutual

/-- Model of Python `repr` (used by `str` on elements of containers).
String escaping inside `repr` is not modelled; no claim depends on it. -/
def pyRepr : PyVal → String
  | .vnone => "None"
  | .vbool b => if b then "True" else "False"
  | .vint n => toString n
  | .vrat q => toString q
  | .vstr s => "'" ++ s ++ "'"
  | .vlist xs => "[" ++ String.intercalate ", " (pyReprList xs) ++ "]"
  | .vdict es => "\x7b" ++ String.intercalate ", " (pyReprEntries es) ++ "\x7d"

/-- Helper for `pyRepr` on list elements. -/
def pyReprList : List PyVal → List String
  | [] => []
  | x :: xs => pyRepr x :: pyReprList xs

/-- Helper for `pyRepr` on dict entries. -/
def pyReprEntries : List (String × PyVal) → List String
  | [] => []
  | (k, v) :: es => ("'" ++ k ++ "': " ++ pyRepr v) :: pyReprEntries es

end

/-- Model of Python `str(v)`: identical to `repr` except on strings. -/
def pyStr : PyVal → String
  | .vstr s => s
  | v => pyRepr v

/-- Python `d.get(k, default)` on a dict modelled as an association list
(keys are unique in every dict this code builds, so first match suffices). -/
def pyGet (es : PyDict) (k : String) (dflt : PyVal) : PyVal :=
  match es.find? (fun e => e.1 == k) with
  | some e => e.2
  | none => dflt

/-- Python `d.get(k, default)` for the fields the delegation convention
declares as strings (`subagent_type` / `description`, spec section 6).  A
non-string value would be stored untyped by the Python dataclass; it is
rendered through `pyStr` here so the field can stay `String`-typed. -/
def pyGetStr (es : PyDict) (k : String) (dflt : String) : String :=
  match es.find? (fun e => e.1 == k) with
  | some (_, .vstr s) => s
  | some (_, v) => pyStr v
  | none => dflt

/-- Python truthiness of an `Optional[str]`: `None` and `""` are falsy. -/
def pyTruthyOptStr : Option String → Bool
  | none => false
  | some s => s ≠ ""

/-- Python truthiness of an `Optional[Dict]`: `None` and `{}` are falsy. -/
def pyTruthyOptDict : Option PyDict → Bool
  | none => false
  | some es => !es.isEmpty

/-! ## Data model of `activity_tracker.py` -/

/-- `ToolCall` dataclass: a single tool invocation. -/
structure ToolCall where
  tool_name : String
  tool_id : String
  timestamp : String
  agent : String := "main"
deriving Repr, DecidableEq

/-- `SubagentExecution` dataclass: a subagent execution via the Task tool.
`duration_ms`, `usage` and `total_cost_usd` are filled from a dict-shaped
tool result without validation, so they are modelled as raw `PyVal`s
(initially Python `None`). -/
structure SubagentExecution where
  subagent_type : String
  task_description : String
  start_time : String
  end_time : Option String := none
  duration_ms : PyVal := .vnone
  result_summary : Option String := none
  usage : PyVal := .vnone
  total_cost_usd : PyVal := .vnone
deriving Repr

/-- `TurnActivity` dataclass: activity within a single conversation turn. -/
structure TurnActivity where
  turn_number : Int
  start_time : String
  end_time : Option String := none
  tool_calls : List ToolCall := []
  subagent_executions : List SubagentExecution := []
deriving Repr

/-- `TurnActivity.add_tool_call`. -/
def TurnActivity.add_tool_call (t : TurnActivity) (tool_name tool_id : String)
    (now : String) (agent : String := "main") : TurnActivity :=
  { t with tool_calls := t.tool_calls ++
      [{ tool_name := tool_name, tool_id := tool_id, timestamp := now, agent := agent }] }

/-- `TurnActivity.add_subagent_execution`: appends a fresh execution.  The
Python method returns the (aliased) execution object; the alias is modelled
by the index of the new element, `t.subagent_executions.length`. -/
def TurnActivity.add_subagent_execution (t : TurnActivity)
    (subagent_type task_description : String) (now : String) : TurnActivity :=
  { t with subagent_executions := t.subagent_executions ++
      [{ subagent_type := subagent_type, task_description := task_description,
         start_time := now }] }

/-- Insertion-ordered counter increment, mirroring `defaultdict(int)` /
plain-dict counting: a new key is appended, an existing key is bumped in
place. -/
def countsAdd (m : List (String × Nat)) (k : String) (delta : Nat) :
    List (String × Nat) :=
  match m with
  | [] => [(k, delta)]
  | (k', n) :: rest =>
      if k' = k then (k', n + delta) :: rest else (k', n) :: countsAdd rest k delta

/-- `TurnActivity.get_tool_counts`: tool-name histogram in first-seen order. -/
def TurnActivity.get_tool_counts (t : TurnActivity) : List (String × Nat) :=
  t.tool_calls.foldl (fun m c => countsAdd m c.tool_name 1) []

/-- Replace the last element of a list by `f` of it (identity on `[]`).
Models mutation through the `current_turn` alias, which in the source always
points at the last element of `turns`. -/
def updateLast {α : Type} (l : List α) (f : α → α) : List α :=
  match l with
  | [] => []
  | [a] => [f a]
  | a :: b :: rest => a :: updateLast (b :: rest) f

/-- Replace the `i`-th element of a list by `f` of it (identity when out of
range).  Models mutation through an object reference recorded as an index. -/
def listModify {α : Type} (l : List α) (i : Nat) (f : α → α) : List α :=
  match l, i with
  | [], _ => []
  | a :: rest, 0 => f a :: rest
  | a :: rest, n + 1 => a :: listModify rest n f

/-- Python dict assignment `m[k] = v`: overwrite in place, or append. -/
def dictPut {β : Type} (m : List (String × β)) (k : String) (v : β) :
    List (String × β) :=
  match m with
  | [] => [(k, v)]
  | (k', v') :: rest =>
      if k' = k then (k', v) :: rest else (k', v') :: dictPut rest k v

/-- `AgentActivityTracker` state.  The source's `current_turn` field is a
reference that is only ever (re)assigned in `start_turn`, which also appends
the same object to `turns`; hence `current_turn` is always `turns.getLast?`
(and `None` exactly when `turns` is empty) and is not stored separately.
`_pending_subagents` maps a tool id to the (turn, execution) position of the
aliased `SubagentExecution`. -/
structure AgentActivityTracker where
  session_id : String
  start_time : String
  end_time : Option String := none
  turns : List TurnActivity := []
  pending_subagents : List (String × Nat × Nat) := []
deriving Repr

namespace AgentActivityTracker

/-- `AgentActivityTracker.__init__` with an explicit session id (the
timestamp-derived default id is just another opaque string). -/
def init (session_id now : String) : AgentActivityTracker :=
  { session_id := session_id, start_time := now }

/-- `start_turn`: opens a new turn and makes it current (= last). -/
def start_turn (t : AgentActivityTracker) (turn_number : Int) (now : String) :
    AgentActivityTracker :=
  { t with turns := t.turns ++ [{ turn_number := turn_number, start_time := now }] }

/-- `end_turn`: sets the current turn's `end_time`; no-op without a turn. -/
def end_turn (t : AgentActivityTracker) (now : String) : AgentActivityTracker :=
  match t.turns.getLast? with
  | none => t
  | some _ => { t with turns := updateLast t.turns (fun tu => { tu with end_time := some now }) }

/-- `record_tool_call`: auto-creates a turn when none was started, opens a
`SubagentExecution` for a truthy-input `"Task"` call, and appends the tool
call to the current turn under agent `"main"`. -/
def record_tool_call (t : AgentActivityTracker) (tool_name tool_id : String)
    (tool_input : Option PyDict := none) (now : String := "") :
    AgentActivityTracker :=
  let t := if t.turns.isEmpty then t.start_turn (t.turns.length + 1) now else t
  let t :=
    if tool_name = "Task" ∧ pyTruthyOptDict tool_input then
      let input := tool_input.getD []
      let subagent_type := pyGetStr input "subagent_type" "unknown"
      let task_description := pyGetStr input "description" ""
      let ti := t.turns.length - 1
      let ei := ((t.turns.getLast?.map (·.subagent_executions.length)).getD 0)
      { t with
        turns := updateLast t.turns
          (fun tu => tu.add_subagent_execution subagent_type task_description now),
        pending_subagents := dictPut t.pending_subagents tool_id (ti, ei) }
    else t
  { t with turns := updateLast t.turns (fun tu => tu.add_tool_call tool_name tool_id now) }

/-- The in-place update `record_tool_result` performs on the pending
execution it found: set `end_time`, then extract metadata from a dict-shaped
result or truncate a string-shaped result to 200 characters. -/
def updateExecution (result : PyVal) (now : String) (ex : SubagentExecution) :
    SubagentExecution :=
  let ex := { ex with end_time := some now }
  match result with
  | .vdict d =>
      { ex with
        duration_ms := pyGet d "duration_ms" .vnone,
        usage := pyGet d "usage" .vnone,
        total_cost_usd := pyGet d "total_cost_usd" .vnone,
        result_summary := some ((pyStr (pyGet d "result" (.vstr ""))).take 200) }
  | .vstr s => { ex with result_summary := some (s.take 200) }
  | _ => ex

/-- Apply `updateExecution` to the `ei`-th execution of a turn, modelling
the in-place mutation through the aliased object reference. -/
def closeExecutionAt (result : PyVal) (now : String) (ei : Nat)
    (tu : TurnActivity) : TurnActivity :=
  { tu with subagent_executions :=
      listModify tu.subagent_executions ei (updateExecution result now) }

/-- `record_tool_result`: closes the pending execution matched by `tool_id`
and deletes the pending entry; unknown ids are a no-op.  The `is_error`
argument is accepted and ignored, exactly as in the source. -/
def record_tool_result (t : AgentActivityTracker) (tool_id : String)
    (result : PyVal) (_is_error : Bool := false) (now : String := "") :
    AgentActivityTracker :=
  match t.pending_subagents.find? (fun e => e.1 == tool_id) with
  | none => t
  | some (_, ti, ei) =>
      { t with
        turns := listModify t.turns ti (closeExecutionAt result now ei),
        pending_subagents := t.pending_subagents.eraseP (fun e => e.1 == tool_id) }

/-- `end_session`: unconditionally stamps the session `end_time`, then closes
the current turn when its `end_time` is still falsy. -/
def end_session (t : AgentActivityTracker) (now : String) : AgentActivityTracker :=
  let t := { t with end_time := some now }
  match t.turns.getLast? with
  | none => t
  | some tu => if pyTruthyOptStr tu.end_time then t else t.end_turn now

end AgentActivityTracker

/-! ## Session statistics and trading-action queries -/

/-- Interpret a list of decimal digit characters as a natural number. -/
def digitsToNat (cs : List Char) : Nat :=
  cs.foldl (fun n c => n * 10 + (c.toNat - '0'.toNat)) 0

/-- Read exactly `k` decimal digits from the front of the input. -/
def parseFixedNat (cs : List Char) (k : Nat) : Option (Nat × List Char) :=
  let pre := cs.take k
  if pre.length = k ∧ pre.all Char.isDigit then some (digitsToNat pre, cs.drop k)
  else none

/-- Consume one expected character. -/
def expectChar (cs : List Char) (c : Char) : Option (List Char) :=
  match cs with
  | x :: rest => if x = c then some rest else none
  | [] => none

/-- Days since 1970-01-01 of a proleptic-Gregorian civil date (the standard
era/year-of-era algorithm, as used by CPython's date arithmetic). -/
def daysFromCivil (y : Int) (mo d : Nat) : Int :=
  let y' : Int := if mo ≤ 2 then y - 1 else y
  let era : Int := (if 0 ≤ y' then y' else y' - 399) / 400
  let yoe : Int := y' - era * 400
  let mp : Int := (Int.ofNat mo + 9) % 12
  let doy : Int := (153 * mp + 2) / 5 + Int.ofNat d - 1
  let doe : Int := yoe * 365 + yoe / 4 - yoe / 100 + doy
  era * 146097 + doe - 719468

/-- Parse a UTC-offset suffix `+hh:mm` / `-hh:mm` (or nothing) into offset
seconds. -/
def parseOffset : List Char → Option (Int × List Char)
  | [] => some (0, [])
  | c :: rest =>
      if c = '+' ∨ c = '-' then do
        let (oh, r1) ← parseFixedNat rest 2
        let r2 ← expectChar r1 ':'
        let (om, r3) ← parseFixedNat r2 2
        let sgn : Int := if c = '+' then 1 else -1
        some (sgn * (Int.ofNat oh * 3600 + Int.ofNat om * 60), r3)
      else none

/-- Model of `datetime.fromisoformat` on the canonical timestamps this module
itself writes (`YYYY-MM-DDTHH:MM:SS[.ffffff][+hh:mm]`), as seconds since the
epoch.  `none` models the `ValueError` CPython raises on other shapes. -/
def isoToSeconds (s : String) : Option Rat := do
  let cs := s.data
  let (y, cs) ← parseFixedNat cs 4
  let cs ← expectChar cs '-'
  let (mo, cs) ← parseFixedNat cs 2
  let cs ← expectChar cs '-'
  let (d, cs) ← parseFixedNat cs 2
  let cs ← expectChar cs 'T'
  let (h, cs) ← parseFixedNat cs 2
  let cs ← expectChar cs ':'
  let (mi, cs) ← parseFixedNat cs 2
  let cs ← expectChar cs ':'
  let (se, cs) ← parseFixedNat cs 2
  let (frac, cs) : Rat × List Char :=
    match cs with
    | '.' :: rest =>
        let ds := rest.takeWhile Char.isDigit
        ((digitsToNat ds : Rat) / ((10 : Rat) ^ ds.length), rest.dropWhile Char.isDigit)
    | other => (0, other)
  let (off, cs) ← parseOffset cs
  if cs.isEmpty then
    some (((86400 * daysFromCivil (Int.ofNat y) mo d
            + 3600 * Int.ofNat h + 60 * Int.ofNat mi + Int.ofNat se - off : Int) : Rat) + frac)
  else none

/-- The elapsed-duration rendering of `get_session_stats`:
`f"{minutes}m {seconds}s"` with `minutes = int(total_seconds() // 60)` and
`seconds = int(total_seconds() % 60)`. -/
def durationString (start_time end_time : String) : String :=
  match isoToSeconds start_time, isoToSeconds end_time with
  | some a, some b =>
      let q : Rat := b - a
      let minutes : Int := ⌊q / 60⌋
      let seconds : Int := ⌊q - 60 * ((⌊q / 60⌋ : Int) : Rat)⌋
      toString minutes ++ "m " ++ toString seconds ++ "s"
  | _, _ => "N/A"

/-- Python set insertion on a set modelled as a duplicate-free list in
insertion order (only the cardinality and the sorted rendering of the set
are observable). -/
def setInsert (s : List String) (x : String) : List String :=
  if x ∈ s then s else s ++ [x]

/-- Insert into an ascending list of strings (code-point order, as Python
string comparison). -/
def insertStrAsc (x : String) : List String → List String
  | [] => [x]
  | y :: ys => if x < y then x :: y :: ys else y :: insertStrAsc x ys

/-- `sorted(...)` on a list of strings. -/
def sortStrings (l : List String) : List String := l.foldr insertStrAsc []

/-- Stable insertion for a descending-by-count sort: a new entry goes after
every existing entry with a count at least as large, exactly reproducing
Python's stable `sorted(..., key=count, reverse=True)`. -/
def insertCountDesc (x : String × Nat) : List (String × Nat) → List (String × Nat)
  | [] => [x]
  | y :: ys => if x.2 ≤ y.2 then y :: insertCountDesc x ys else x :: y :: ys

/-- Stable descending-by-count sort of a histogram. -/
def sortByCountDesc (l : List (String × Nat)) : List (String × Nat) :=
  l.foldl (fun acc x => insertCountDesc x acc) []

/-- The dictionary returned by `get_session_stats`, as a record. -/
structure SessionStats where
  session_id : String
  start_time : String
  end_time : Option String
  duration : String
  total_turns : Nat
  total_tool_calls : Nat
  total_subagent_executions : Nat
  unique_agents : Nat
  agents_list : List String
  tool_usage : List (String × Nat)
deriving Repr, DecidableEq

namespace AgentActivityTracker

/-- `get_session_stats`: totals, distinct agents, descending tool histogram
and the formatted session duration. -/
def get_session_stats (t : AgentActivityTracker) : SessionStats :=
  let total_tools := t.turns.foldl (fun n tu => n + tu.tool_calls.length) 0
  let total_subagents := t.turns.foldl (fun n tu => n + tu.subagent_executions.length) 0
  let agents_used := t.turns.foldl (fun s tu =>
    tu.subagent_executions.foldl (fun s ex => setInsert s ex.subagent_type) s) ["main"]
  let all_tool_counts := t.turns.foldl (fun m tu =>
    (tu.get_tool_counts).foldl (fun m kc => countsAdd m kc.1 kc.2) m) []
  let duration_str :=
    match t.end_time with
    | none => "N/A"
    | some e => durationString t.start_time e
  { session_id := t.session_id
    start_time := t.start_time
    end_time := t.end_time
    duration := duration_str
    total_turns := t.turns.length
    total_tool_calls := total_tools
    total_subagent_executions := total_subagents
    unique_agents := agents_used.length
    agents_list := sortStrings agents_used
    tool_usage := sortByCountDesc all_tool_counts }

end AgentActivityTracker

/-- Left-to-right non-overlapping replacement on character lists, fuelled by
the input length (each step consumes at least one character). -/
def replaceFrom : Nat → List Char → List Char → List Char → List Char
  | _, [], _, _ => []
  | 0, s, _, _ => s
  | fuel + 1, c :: rest, pat, rep =>
      if pat ≠ [] ∧ pat.isPrefixOf (c :: rest) then
        rep ++ replaceFrom fuel ((c :: rest).drop pat.length) pat rep
      else c :: replaceFrom fuel rest pat rep

/-- Python `s.replace(old, new)`: replace every non-overlapping occurrence,
scanning left to right.  (Python's special case of an empty `old` never
arises here: the only pattern used is `"mcp__binance__"`.) -/
def pyReplace (s old new : String) : String :=
  ⟨replaceFrom s.data.length s.data old.data new.data⟩

/-- One entry of the `get_trading_actions` result. -/
structure TradingActionOut where
  type : String
  timestamp : String
  tool_id : String
  turn_number : Int
deriving Repr, DecidableEq

/-- The fixed allow-list of exchange-affecting tool names. -/
def trading_tool_names : List String :=
  ["mcp__binance__binance_spot_market_order",
   "mcp__binance__binance_spot_limit_order",
   "mcp__binance__binance_spot_oco_order",
   "mcp__binance__binance_cancel_order",
   "mcp__binance__binance_trade_futures_market",
   "mcp__binance__binance_futures_limit_order",
   "mcp__binance__binance_cancel_futures_order"]

/-- `get_trading_actions`: all tool calls whose name is in the allow-list, in
turn order then call order, with `"mcp__binance__"` removed from the name by
`str.replace`. -/
def AgentActivityTracker.get_trading_actions (t : AgentActivityTracker) :
    List TradingActionOut :=
  t.turns.foldl (fun acc tu =>
    tu.tool_calls.foldl (fun acc c =>
      if c.tool_name ∈ trading_tool_names then
        acc ++ [{ type := pyReplace c.tool_name "mcp__binance__" ""
                  timestamp := c.timestamp
                  tool_id := c.tool_id
                  turn_number := tu.turn_number }]
      else acc) acc) []

/-! ## The public operations as an event language -/

/-- One call to a public mutating operation of the tracker, with the
timestamp the wall clock produced during that call. -/
inductive Op where
  | opStartTurn (n : Int) (now : String)
  | opEndTurn (now : String)
  | opRecordToolCall (name id : String) (input : Option PyDict) (now : String)
  | opRecordToolResult (id : String) (result : PyVal) (is_error : Bool) (now : String)
  | opEndSession (now : String)

/-- Dispatch one operation. -/
def applyOp (t : AgentActivityTracker) : Op → AgentActivityTracker
  | .opStartTurn n now => t.start_turn n now
  | .opEndTurn now => t.end_turn now
  | .opRecordToolCall name id input now => t.record_tool_call name id input now
  | .opRecordToolResult id result e now => t.record_tool_result id result e now
  | .opEndSession now => t.end_session now

/-- Run a sequence of public operations. -/
def runOps (t : AgentActivityTracker) (ops : List Op) : AgentActivityTracker :=
  ops.foldl applyOp t

/-- Is the operation a `start_turn` call? -/
def Op.isStart : Op → Bool
  | .opStartTurn _ _ => true
  | _ => false

/-- Is the operation a `record_tool_call` call? -/
def Op.isRecord : Op → Bool
  | .opRecordToolCall _ _ _ _ => true
  | _ => false

/-- Is the operation one of `start_turn` / `record_tool_call` / `end_turn`? -/
def Op.isBasic : Op → Bool
  | .opStartTurn _ _ => true
  | .opEndTurn _ => true
  | .opRecordToolCall _ _ _ _ => true
  | _ => false

/-- Number of `start_turn` calls in an operation sequence. -/
def countStartTurns (ops : List Op) : Nat := ops.countP (fun op => op.isStart)

/-- Number of auto-created turns (0 or 1): a turn is auto-created exactly
when the first turn-creating operation of the sequence is a
`record_tool_call` rather than a `start_turn`. -/
def autoCreates (ops : List Op) : Nat :=
  match ops.find? (fun op => op.isStart || op.isRecord) with
  | some op => if op.isRecord then 1 else 0
  | none => 0

/-- The sum of `len(turn.tool_calls)` over all turns. -/
def sumToolCallsOverTurns (t : AgentActivityTracker) : Nat :=
  (t.turns.map (fun tu => tu.tool_calls.length)).sum

/-- The end-to-end scenario of spec section 8: two turns; turn 1 records three
tool calls, one of them a delegation to `risk-manager` whose result later
arrives as a dict with `duration_ms` 1200 and `total_cost_usd` 0.05; turn 2
records one `spot_market_order` trading call; then the session ends. -/
def endToEndOps : List Op :=
  [.opStartTurn 1 "2026-01-01T00:00:01+00:00",
   .opRecordToolCall "mcp__binance__binance_get_ticker" "tc1" none "2026-01-01T00:00:02+00:00",
   .opRecordToolCall "Task" "tc2"
     (some [("subagent_type", .vstr "risk-manager"), ("description", .vstr "assess risk")])
     "2026-01-01T00:00:03+00:00",
   .opRecordToolCall "mcp__binance__binance_get_account" "tc3" none "2026-01-01T00:00:04+00:00",
   .opRecordToolResult "tc2"
     (.vdict [("duration_ms", .vint 1200), ("total_cost_usd", .vrat (1 / 20))]) false
     "2026-01-01T00:00:05+00:00",
   .opEndTurn "2026-01-01T00:00:06+00:00",
   .opStartTurn 2 "2026-01-01T00:00:07+00:00",
   .opRecordToolCall "mcp__binance__binance_spot_market_order" "tc4" none
     "2026-01-01T00:00:08+00:00",
   .opEndSession "2026-01-01T00:00:09+00:00"]

/-- The tracker state at the end of the end-to-end scenario. -/
def endToEndTracker : AgentActivityTracker :=
  runOps (.init "s1" "2026-01-01T00:00:00+00:00") endToEndOps

/-- The per-turn invariant of claim C10: a turn never holds more
`SubagentExecution`s than `"Task"`-named tool calls. -/
def TurnOk (tu : TurnActivity) : Prop :=
  tu.subagent_executions.length ≤
    tu.tool_calls.countP (fun c => c.tool_name == "Task")

/-- A tracker with one pending delegation (`tool_id` `"x1"`), used to
exercise `record_tool_result`. -/
def pendingScenarioTracker : AgentActivityTracker :=
  (AgentActivityTracker.init "s" "2026-01-01T00:00:00+00:00").record_tool_call "Task" "x1"
    (some [("subagent_type", .vstr "trader")]) "2026-01-01T00:00:01+00:00"

/-- A small operation sequence using only the three basic operations
(`start_turn` / `record_tool_call` / `end_turn`). -/
def basicOpsSample : List Op :=
  [.opStartTurn 1 "2026-02-01T00:00:01+00:00",
   .opRecordToolCall "Read" "a1" none "2026-02-01T00:00:02+00:00",
   .opRecordToolCall "Read" "a2" none "2026-02-01T00:00:03+00:00",
   .opEndTurn "2026-02-01T00:00:04+00:00"]

/-- A one-operation sequence recording a delegation call before any
`start_turn`. -/
def delegationOpsSample : List Op :=
  [.opRecordToolCall "Task" "w1" (some [("subagent_type", .vstr "trader")])
    "2026-03-01T00:00:01+00:00"]

/-- The single turn produced by `delegationOpsSample` (auto-created as turn
1; the delegation opens one execution and appends one `"Task"` call). -/
def delegationTurn : TurnActivity :=
  { turn_number := 1
    start_time := "2026-03-01T00:00:01+00:00"
    tool_calls := [{ tool_name := "Task", tool_id := "w1",
                     timestamp := "2026-03-01T00:00:01+00:00", agent := "main" }]
    subagent_executions := [{ subagent_type := "trader", task_description := "",
                              start_time := "2026-03-01T00:00:01+00:00" }] }

/-! ## A small backtracking regular-expression engine

The extractor in `trading_agent.py` is built on `re.search` / `re.match` /
`re.sub`.  The patterns used there are embedded as terms of `RE` below and
run by a continuation-passing backtracking matcher with Python's preference
order: leftmost start, left alternative first, greedy quantifiers prefer
longer, lazy quantifiers prefer shorter.  Character classes are the ASCII
readings of `\w`, `\s`, `\d` (the agent output this code parses is ASCII
apart from emoji, which appear only in explicit classes). -/

/-- Syntax of the embedded regular expressions. -/
inductive RE where
  | lit (ci : Bool) (s : List Char)
  | cls (p : Char → Bool)
  | seq (a b : RE)
  | alt (a b : RE)
  | star (greedy : Bool) (a : RE)
  | opt (greedy : Bool) (a : RE)
  | grp (n : Nat) (a : RE)
  | eos

/-- Captured groups: group index to captured character span (last capture
wins, as in Python). -/
abbrev Caps := List (Nat × List Char)

/-- Insert-or-overwrite for association lists over any key type (Python
dict assignment). -/
def assocPut {κ β : Type} [BEq κ] (m : List (κ × β)) (k : κ) (v : β) :
    List (κ × β) :=
  match m with
  | [] => [(k, v)]
  | (k', v') :: rest =>
      if k' == k then (k', v) :: rest else (k', v') :: assocPut rest k v

/-- Character comparison, optionally case-insensitive (ASCII lowering, as
Python's `re.IGNORECASE` on the ASCII text this code sees). -/
def charEqCI (ci : Bool) (a b : Char) : Bool :=
  if ci then a.toLower == b.toLower else a == b

/-- Strip a literal (case-sensitively or not) off the front of the input. -/
def stripLit (ci : Bool) : List Char → List Char → Option (List Char)
  | [], s => some s
  | _ :: _, [] => none
  | p :: ps, c :: s => if charEqCI ci p c then stripLit ci ps s else none

/-- The backtracking matcher.  `fuel` bounds the depth of the matcher's
call tree and is decremented on every step (keeping the recursion
structural, hence kernel-reducible); every `star` iteration must consume
input (Python's patterns here all have consuming loop bodies), so
`(input length + 2) * (pattern size + 2)` is always enough fuel. -/
def reMatch : Nat → RE → List Char → Caps →
    (List Char → Caps → Option Caps) → Option Caps
  | 0, _, _, _, _ => none
  | fuel + 1, re, s, caps, k =>
      match re with
      | .lit ci pat =>
          match stripLit ci pat s with
          | some rest => k rest caps
          | none => none
      | .cls p =>
          match s with
          | c :: rest => if p c then k rest caps else none
          | [] => none
      | .seq a b =>
          reMatch fuel a s caps (fun s' c' => reMatch fuel b s' c' k)
      | .alt a b =>
          (reMatch fuel a s caps k).orElse (fun _ => reMatch fuel b s caps k)
      | .opt g a =>
          if g then (reMatch fuel a s caps k).orElse (fun _ => k s caps)
          else (k s caps).orElse (fun _ => reMatch fuel a s caps k)
      | .star g a =>
          if g then
            (reMatch fuel a s caps (fun s' c' =>
                if s'.length = s.length then none
                else reMatch fuel (.star g a) s' c' k)).orElse
              (fun _ => k s caps)
          else
            (k s caps).orElse (fun _ =>
              reMatch fuel a s caps (fun s' c' =>
                if s'.length = s.length then none
                else reMatch fuel (.star g a) s' c' k))
      | .grp n a =>
          reMatch fuel a s caps (fun s' c' =>
            k s' (assocPut c' n (s.take (s.length - s'.length))))
      | .eos =>
          if s = [] ∨ s = ['\n'] then k s caps else none

/-- Pattern size, used to compute a sufficient fuel. -/
def reSize : RE → Nat
  | .lit _ _ => 1
  | .cls _ => 1
  | .seq a b => reSize a + reSize b + 1
  | .alt a b => reSize a + reSize b + 1
  | .star _ a => reSize a + 1
  | .opt _ a => reSize a + 1
  | .grp _ a => reSize a + 1
  | .eos => 1

/-- Sufficient fuel for matching `re` against `s`. -/
def reFuel (re : RE) (s : List Char) : Nat := (s.length + 2) * (reSize re + 2)

/-- Python `re.match`: anchored at the start; the whole match is recorded
as group 0. -/
def reMatchStart (re : RE) (s : List Char) : Option Caps :=
  reMatch (reFuel re s) (.grp 0 re) s [] (fun _ caps => some caps)

/-- Python `re.search`: try every start position from the left; reports the
start position and the captures of the first position that matches. -/
def reSearchPos (re : RE) : List Char → Nat → Option (Nat × Caps)
  | s, pos =>
      match reMatch (reFuel re s) (.grp 0 re) s [] (fun _ caps => some caps) with
      | some caps => some (pos, caps)
      | none =>
          match s with
          | [] => none
          | _ :: rest => reSearchPos re rest (pos + 1)

/-- `re.search` keeping only the captures. -/
def reSearch (re : RE) (s : List Char) : Option Caps :=
  (reSearchPos re s 0).map (·.2)

/-- Read a captured group; `none` when the group did not participate. -/
def capGet? (caps : Caps) (n : Nat) : Option (List Char) :=
  (caps.find? (fun e => e.1 == n)).map (·.2)

/-- Read a captured group, defaulting to the empty span. -/
def capGet (caps : Caps) (n : Nat) : List Char :=
  (capGet? caps n).getD []

/-- Python `re.sub(re, rep, s)`: replace every non-overlapping match,
scanning left to right (fuelled by the number of replacements, which is
bounded by the input length for the non-empty patterns used here). -/
def reSubAll (re : RE) (rep : List Char) : Nat → List Char → List Char
  | 0, s => s
  | f + 1, s =>
      match reSearchPos re s 0 with
      | none => s
      | some (pos, caps) =>
          let m := capGet caps 0
          s.take pos ++ rep ++ reSubAll re rep f (s.drop (pos + m.length))

/-- String-level `re.sub` wrapper. -/
def reSubStr (re : RE) (rep s : String) : String :=
  ⟨reSubAll re rep.data (s.data.length + 1) s.data⟩

/-! ## Character classes and the extractor's patterns -/

/-- Python `\s` (ASCII). -/
def wsChar (c : Char) : Bool :=
  c = ' ' ∨ c = '\t' ∨ c = '\n' ∨ c = '\r' ∨ c = '\x0b' ∨ c = '\x0c'

/-- Python `\w` (ASCII reading). -/
def wordChar (c : Char) : Bool :=
  c.isAlpha ∨ c.isDigit ∨ c = '_'

/-- Sequence a list of pattern pieces. -/
def reSeqAll (l : List RE) : RE := l.foldr .seq (.lit false [])

/-- One-or-more. -/
def rePlus (g : Bool) (a : RE) : RE := .seq a (.star g a)

/-- The class `[:\s]`. -/
def colonWs (c : Char) : Bool := c = ':' ∨ wsChar c

/-- The fenced-JSON pattern of strategy 1 (DOTALL is irrelevant: no dot). -/
def fenceRE : RE :=
  reSeqAll
    [.lit false "```json".data,
     .star true (.cls wsChar),
     .grp 1 (reSeqAll
       [.lit false ['\x7b'],
        rePlus true (.cls (fun c => c ≠ '\u0060')),
        .lit false ['\x7d']]),
     .star true (.cls wsChar),
     .lit false "```".data]

/-- The pattern for the total call count (IGNORECASE). -/
def totalCallsRE : RE :=
  reSeqAll
    [.lit true "Total".data,
     rePlus true (.cls wsChar),
     .opt true (reSeqAll [.lit true "MCP".data, rePlus true (.cls wsChar)]),
     .lit true "Tool".data,
     rePlus true (.cls wsChar),
     .lit true "Calls".data,
     rePlus true (.cls colonWs),
     .grp 1 (rePlus true (.cls Char.isDigit))]

/-- The body of one requester-table line inside the section pattern. -/
def requesterSectionLineRE : RE :=
  reSeqAll
    [.star true (.cls wsChar),
     .opt true (.lit false "-".data),
     .star true (.cls wsChar),
     rePlus true (.cls (fun c => wordChar c ∨ c = '-')),
     rePlus true (.cls colonWs),
     rePlus true (.cls Char.isDigit),
     rePlus true (.cls wsChar),
     .lit true "call".data,
     .opt true (.lit true "s".data),
     .star true (.cls (fun c => c ≠ '\n')),
     .opt true (.lit false "\n".data)]

/-- The requester-section pattern (IGNORECASE). -/
def requesterSectionRE : RE :=
  reSeqAll
    [.lit true "TOOL".data, rePlus true (.cls wsChar),
     .lit true "CALLS".data, rePlus true (.cls wsChar),
     .lit true "BY".data, rePlus true (.cls wsChar),
     .lit true "REQUESTER".data,
     .star true (.cls colonWs),
     .lit false "\n".data,
     .grp 1 (rePlus true requesterSectionLineRE)]

/-- The per-line requester pattern (applied anchored, case-sensitively). -/
def requesterLineRE : RE :=
  reSeqAll
    [.star true (.cls wsChar),
     .opt true (.lit false "-".data),
     .star true (.cls wsChar),
     .grp 1 (rePlus true (.cls (fun c => wordChar c ∨ c = '-'))),
     rePlus true (.cls colonWs),
     .grp 2 (rePlus true (.cls Char.isDigit)),
     rePlus true (.cls wsChar),
     .lit false "call".data,
     .opt true (.lit false "s".data)]

/-- The body of one server-table line (its name class also admits spaces). -/
def serverSectionLineRE : RE :=
  reSeqAll
    [.star true (.cls wsChar),
     .opt true (.lit false "-".data),
     .star true (.cls wsChar),
     rePlus true (.cls (fun c => wordChar c ∨ wsChar c ∨ c = '-')),
     rePlus true (.cls colonWs),
     rePlus true (.cls Char.isDigit),
     rePlus true (.cls wsChar),
     .lit true "call".data,
     .opt true (.lit true "s".data),
     .star true (.cls (fun c => c ≠ '\n')),
     .opt true (.lit false "\n".data)]

/-- The server-section pattern (IGNORECASE). -/
def serverSectionRE : RE :=
  reSeqAll
    [.lit true "TOOL".data, rePlus true (.cls wsChar),
     .lit true "CALLS".data, rePlus true (.cls wsChar),
     .lit true "BY".data, rePlus true (.cls wsChar),
     .opt true (reSeqAll [.lit true "MCP".data, rePlus true (.cls wsChar)]),
     .lit true "SERVER".data,
     .star true (.cls colonWs),
     .lit false "\n".data,
     .grp 1 (rePlus true serverSectionLineRE)]

/-- The per-line server pattern: lazy name group, optional `MCP` suffix. -/
def serverLineRE : RE :=
  reSeqAll
    [.star true (.cls wsChar),
     .opt true (.lit false "-".data),
     .star true (.cls wsChar),
     .grp 1 (rePlus false (.cls (fun c => wordChar c ∨ wsChar c ∨ c = '-'))),
     .star true (.cls wsChar),
     .opt true (.lit false "MCP".data),
     rePlus true (.cls colonWs),
     .grp 2 (rePlus true (.cls Char.isDigit)),
     rePlus true (.cls wsChar),
     .lit false "call".data,
     .opt true (.lit false "s".data)]

/-- The top-tools section pattern (IGNORECASE). -/
def topToolsSectionRE : RE :=
  reSeqAll
    [.lit true "TOP".data, rePlus true (.cls wsChar),
     .lit true "TOOLS".data, rePlus true (.cls wsChar),
     .opt true (.lit true "USED".data),
     .star true (.cls colonWs),
     .lit false "\n".data,
     .grp 1 (rePlus true requesterSectionLineRE)]

/-- The per-line top-tool pattern (its `[\w_-]` class equals `[\w-]`). -/
def topToolLineRE : RE := requesterLineRE

/-- The CSV-path pattern. -/
def csvRE : RE :=
  .grp 1 (reSeqAll
    [rePlus true (.cls (fun c => wordChar c ∨ c = '/' ∨ c = '-' ∨ c = '.')),
     .lit false "session_report_".data,
     rePlus true (.cls (fun c => wordChar c ∨ c = '-' ∨ c = '.')),
     .lit false ".csv".data])

/-! ## JSON values and a model of `json.loads` -/

/-- JSON values as `json.loads` produces them.  Integer literals become
`jint` (Python `int`); numbers with a fraction or exponent become `jnum`
carrying their literal text (Python `float`; no claim depends on float
arithmetic).  Object fields keep first-occurrence order with last-value
overwrite, exactly as a Python dict built by repeated assignment. -/
inductive Json where
  | jnull
  | jbool (b : Bool)
  | jint (n : Int)
  | jnum (raw : String)
  | jstr (s : String)
  | jarr (xs : List Json)
  | jobj (fields : List (String × Json))
deriving Repr

/-- JSON whitespace. -/
def jsonWs (c : Char) : Bool := c = ' ' ∨ c = '\t' ∨ c = '\n' ∨ c = '\r'

/-- Hex digit value. -/
def hexVal (c : Char) : Option Nat :=
  if '0' ≤ c ∧ c ≤ '9' then some (c.toNat - '0'.toNat)
  else if 'a' ≤ c ∧ c ≤ 'f' then some (c.toNat - 'a'.toNat + 10)
  else if 'A' ≤ c ∧ c ≤ 'F' then some (c.toNat - 'A'.toNat + 10)
  else none

/-- Parse the body of a JSON string literal (after the opening quote),
fuelled by the input length.  Surrogate pairs are not recombined; no claim
involves non-BMP text. -/
def jsonStringBody : Nat → List Char → Option (List Char × List Char)
  | 0, _ => none
  | _ + 1, [] => none
  | f + 1, c :: rest =>
      if c = '"' then some ([], rest)
      else if c = '\\' then
        match rest with
        | [] => none
        | e :: rest' =>
            let simpleEsc : Option Char :=
              if e = '"' then some '"'
              else if e = '\\' then some '\\'
              else if e = '/' then some '/'
              else if e = 'b' then some '\x08'
              else if e = 'f' then some '\x0c'
              else if e = 'n' then some '\n'
              else if e = 'r' then some '\r'
              else if e = 't' then some '\t'
              else none
            match simpleEsc with
            | some d =>
                match jsonStringBody f rest' with
                | some (cs, rem) => some (d :: cs, rem)
                | none => none
            | none =>
                if e = 'u' then
                  match rest' with
                  | h1 :: h2 :: h3 :: h4 :: rest'' =>
                      match hexVal h1, hexVal h2, hexVal h3, hexVal h4 with
                      | some a, some b, some c', some d =>
                          let n := ((a * 16 + b) * 16 + c') * 16 + d
                          match jsonStringBody f rest'' with
                          | some (cs, rem) => some (Char.ofNat n :: cs, rem)
                          | none => none
                      | _, _, _, _ => none
                  | _ => none
                else none
      else if c.toNat < 32 then none
      else
        match jsonStringBody f rest with
        | some (cs, rem) => some (c :: cs, rem)
        | none => none

/-- Parse a JSON number.  Returns `jint` for pure integer literals, `jnum`
with the literal text otherwise; enforces JSON's no-leading-zero rule as
`json.loads` does. -/
def jsonNumber (s : List Char) : Option (Json × List Char) :=
  let (neg, s1) := match s with
    | '-' :: rest => (true, rest)
    | _ => (false, s)
  let intPart := s1.takeWhile Char.isDigit
  let s2 := s1.dropWhile Char.isDigit
  if intPart.isEmpty then none
  else if intPart.length > 1 ∧ intPart.headD '0' = '0' then none
  else
    let (frac, s3) := match s2 with
      | '.' :: rest =>
          let ds := rest.takeWhile Char.isDigit
          if ds.isEmpty then ([], s2) else ('.' :: ds, rest.dropWhile Char.isDigit)
      | _ => ([], s2)
    let (expo, s4) := match s3 with
      | e :: rest =>
          if e = 'e' ∨ e = 'E' then
            let (sgn, rest') := match rest with
              | c :: r => if c = '+' ∨ c = '-' then ([c], r) else ([], rest)
              | [] => ([], rest)
            let ds := rest'.takeWhile Char.isDigit
            if ds.isEmpty then ([], s3)
            else (e :: (sgn ++ ds), rest'.dropWhile Char.isDigit)
          else ([], s3)
      | [] => ([], s3)
    if frac.isEmpty ∧ expo.isEmpty then
      let n : Int := Int.ofNat (digitsToNat intPart)
      some (.jint (if neg then -n else n), s2)
    else
      some (.jnum ⟨(if neg then ['-'] else []) ++ intPart ++ frac ++ expo⟩, s4)

/-- The three states of the recursive-descent JSON reader: at a value, in
an object's member list, or in an array's element list. -/
inductive JMode where
  | value
  | members (acc : List (String × Json))
  | elems (acc : List Json)

/-- One fuel-structural recursive-descent JSON reader (model of the parser
behind `json.loads`; `NaN`/`Infinity` are accepted as Python's default
decoder does; duplicate object keys keep the last value, as a Python
dict). -/
def jsonP : Nat → JMode → List Char → Option (Json × List Char)
  | 0, _, _ => none
  | f + 1, .value, s0 =>
      let s := s0.dropWhile jsonWs
      match s with
      | [] => none
      | c :: rest =>
          if c = '\x7b' then
            let rest' := rest.dropWhile jsonWs
            match rest' with
            | '\x7d' :: rem => some (.jobj [], rem)
            | _ => jsonP f (.members []) rest'
          else if c = '[' then
            let rest' := rest.dropWhile jsonWs
            match rest' with
            | ']' :: rem => some (.jarr [], rem)
            | _ => jsonP f (.elems []) rest'
          else if c = '"' then
            match jsonStringBody (rest.length + 1) rest with
            | some (cs, rem) => some (.jstr ⟨cs⟩, rem)
            | none => none
          else if "true".data.isPrefixOf s then some (.jbool true, s.drop 4)
          else if "false".data.isPrefixOf s then some (.jbool false, s.drop 5)
          else if "null".data.isPrefixOf s then some (.jnull, s.drop 4)
          else if "NaN".data.isPrefixOf s then some (.jnum "NaN", s.drop 3)
          else if "Infinity".data.isPrefixOf s then some (.jnum "Infinity", s.drop 8)
          else if "-Infinity".data.isPrefixOf s then some (.jnum "-Infinity", s.drop 9)
          else jsonNumber s
  | f + 1, .members acc, s =>
      match s with
      | '"' :: rest =>
          match jsonStringBody (rest.length + 1) rest with
          | none => none
          | some (key, rem) =>
              match rem.dropWhile jsonWs with
              | ':' :: rem' =>
                  match jsonP f .value rem' with
                  | none => none
                  | some (v, rem'') =>
                      let acc' := assocPut acc ⟨key⟩ v
                      match rem''.dropWhile jsonWs with
                      | ',' :: rem3 => jsonP f (.members acc') (rem3.dropWhile jsonWs)
                      | '\x7d' :: rem3 => some (.jobj acc', rem3)
                      | _ => none
              | _ => none
      | _ => none
  | f + 1, .elems acc, s =>
      match jsonP f .value s with
      | none => none
      | some (v, rem) =>
          match rem.dropWhile jsonWs with
          | ',' :: rem' => jsonP f (.elems (acc ++ [v])) rem'
          | ']' :: rem' => some (.jarr (acc ++ [v]), rem')
          | _ => none

/-- Model of `json.loads`: parse one value, require only whitespace after
it; `none` models `json.JSONDecodeError`. -/
def jsonLoads (s : String) : Option Json :=
  match jsonP (s.data.length + 1) .value s.data with
  | some (v, rest) => if (rest.dropWhile jsonWs).isEmpty then some v else none
  | none => none

/-! ## The tool-usage report extractor (`parse_reporter_output`) -/

/-- Python `dict.get(k, default)` on parsed JSON fields. -/
def jget (fields : List (String × Json)) (k : String) (dflt : Json) : Json :=
  match fields.find? (fun e => e.1 == k) with
  | some e => e.2
  | none => dflt

/-- Python `d[k] = v` on a dict-valued report field.  A non-dict value is
unreachable from the default report (strategy 1 returns before strategy 2
ever runs); Python would raise `TypeError` there. -/
def jobjPut (j : Json) (k : String) (v : Json) : Json :=
  match j with
  | .jobj fields => .jobj (assocPut fields k v)
  | other => other

/-- Python `list.append` on a list-valued report field (same
reachability note as `jobjPut`). -/
def jarrAppend (j x : Json) : Json :=
  match j with
  | .jarr xs => .jarr (xs ++ [x])
  | other => other

/-- Python truthiness of a JSON value (used on the dict/list report
fields). -/
def jTruthy (j : Json) : Bool :=
  match j with
  | .jnull => false
  | .jbool b => b
  | .jint n => n ≠ 0
  | .jnum _ => true
  | .jstr s => s ≠ ""
  | .jarr xs => !xs.isEmpty
  | .jobj fields => !fields.isEmpty

/-- Python `len` of a dict-valued report field. -/
def jobjSize (j : Json) : Nat :=
  match j with
  | .jobj fields => fields.length
  | _ => 0

/-- The `"name"` entry of one accumulated top-tools record.  Every record in
`top_tools` when this is consulted was built by the fallback itself with a
string name, so the default branches are unreachable. -/
def topToolName (j : Json) : String :=
  match j with
  | .jobj fields =>
      match fields.find? (fun e => e.1 == "name") with
      | some (_, .jstr s) => s
      | _ => ""
  | _ => ""

/-- Python `len(set(t["name"] for t in top_tools))`. -/
def uniqueToolCount (j : Json) : Nat :=
  match j with
  | .jarr xs => ((xs.map topToolName).dedup).length
  | _ => 0

/-- Substring test at every suffix. -/
def infixAt : List Char → List Char → Bool
  | pat, [] => pat.isEmpty
  | pat, s =>
      match s with
      | [] => pat.isEmpty
      | _ :: rest => pat.isPrefixOf s || infixAt pat rest

/-- Python `pat in s` on strings. -/
def containsSub (s pat : String) : Bool := infixAt pat.data s.data

/-- Python `str.strip()`. -/
def pyStrip (s : String) : String :=
  ⟨((s.data.dropWhile wsChar).reverse.dropWhile wsChar).reverse⟩

/-- Python `str.lower()`. -/
def pyLower (s : String) : String := ⟨s.data.map Char.toLower⟩

/-- Python `str.upper()`. -/
def pyUpper (s : String) : String := ⟨s.data.map Char.toUpper⟩

/-- The trigger condition for the legacy fallback: one of the report
headers/indicators must occur in the text (case-sensitive `in` tests). -/
def triggersLegacy (r : String) : Bool :=
  containsSub r "TOOL USAGE REPORT" || containsSub r "Tool Usage" ||
  containsSub r "session_report_" || containsSub r "SESSION SUMMARY" ||
  containsSub r "MCP Tool Calls" || containsSub r "TOOL CALLS BY REQUESTER"

/-- Strategy 1 on one block: find the first fenced JSON and load it.
`none` covers both "no fenced block" and a `json.JSONDecodeError`, after
which the source falls through to the regex fallback.  (A successful load
is always an object because the capture starts with a brace.) -/
def jsonExtract (r : String) : Option (List (String × Json)) :=
  match reSearch fenceRE r.data with
  | none => none
  | some caps =>
      match jsonLoads ⟨capGet caps 1⟩ with
      | some (.jobj fields) => some fields
      | _ => none

/-- The total-call-count recognizer of the fallback. -/
def totalMatch (r : String) : Option Nat :=
  (reSearch totalCallsRE r.data).map (fun caps => digitsToNat (capGet caps 1))

/-- The lines of a matched table section: `group(1).strip().split('\n')`. -/
def sectionBlockLines (sectionRE : RE) (r : String) : Option (List String) :=
  match reSearch sectionRE r.data with
  | none => none
  | some caps => some ((pyStrip ⟨capGet caps 1⟩).splitOn "\n")

/-- The requester-table recognizer: the `(name, calls)` pairs of the lines
of the section that match the per-line pattern, in order. -/
def requesterLines (r : String) : List (String × Nat) :=
  match sectionBlockLines requesterSectionRE r with
  | none => []
  | some lines =>
      lines.foldl (fun acc line =>
        match reMatchStart requesterLineRE (pyStrip line).data with
        | some caps => acc ++ [(⟨capGet caps 1⟩, digitsToNat (capGet caps 2))]
        | none => acc) []

/-- The server-name normalization of the fallback:
`strip().lower().replace(' mcp','').replace('mcp','')`, then the fixed
`binance`/`polygon`/`perplexity` buckets. -/
def normalizeServerName (raw : String) : String :=
  let name := pyReplace (pyReplace (pyLower (pyStrip raw)) " mcp" "") "mcp" ""
  if containsSub name "binance" then "binance"
  else if containsSub name "polygon" then "polygon"
  else if containsSub name "perplexity" then "perplexity"
  else name

/-- The server-table recognizer. -/
def serverLines (r : String) : List (String × Nat) :=
  match sectionBlockLines serverSectionRE r with
  | none => []
  | some lines =>
      lines.foldl (fun acc line =>
        match reMatchStart serverLineRE (pyStrip line).data with
        | some caps =>
            acc ++ [(normalizeServerName ⟨capGet caps 1⟩, digitsToNat (capGet caps 2))]
        | none => acc) []

/-- The top-tools recognizer. -/
def topToolLines (r : String) : List (String × Nat) :=
  match sectionBlockLines topToolsSectionRE r with
  | none => []
  | some lines =>
      lines.foldl (fun acc line =>
        match reMatchStart topToolLineRE (pyStrip line).data with
        | some caps => acc ++ [(⟨capGet caps 1⟩, digitsToNat (capGet caps 2))]
        | none => acc) []

/-- The CSV-path recognizer. -/
def csvMatch (r : String) : Option String :=
  (reSearch csvRE r.data).map (fun caps => ⟨capGet caps 1⟩)

/-- `MCPToolsReport` from `models.py`, with two modelling notes.  First, the
fields hold raw `Json` values: pydantic's default configuration validates
neither assignments nor their types, so the JSON path stores `data.get(...)`
results as they come, and the declared types (`Optional[str]`, `int`,
`Dict[str, int]`, `List[Dict]`) only describe the values this module itself
writes.  The defaults are the declared ones: `None`, `0`, `0`, `0`, `{}`,
`{}`, `[]`. -/
structure MCPToolsReport where
  csv_path : Json := .jnull
  total_tool_calls : Json := .jint 0
  unique_requesters : Json := .jint 0
  unique_tools : Json := .jint 0
  /-- Modelled from the spec: the per-requester breakdown table
  (spec section 4.2, "a per-requester breakdown table").  The running code
  (`parse_reporter_output`) assigns and reads `report.calls_by_requester`,
  but the field's declaration is absent from the `models.py` snapshot, which
  is stale: it also lacks the `WorkflowResults`/`WorkflowPhaseResult`
  classes that `trading_agent.py` imports from it. -/
  calls_by_requester : Json := .jobj []
  calls_by_server : Json := .jobj []
  top_tools : Json := .jarr []
deriving Repr

/-- The report strategy 1 returns: every field is overwritten from the
parsed JSON object (so the returned report depends on that object alone). -/
def reportFromJson (d : List (String × Json)) : MCPToolsReport :=
  { csv_path := jget d "csv_path" .jnull
    total_tool_calls := jget d "total_tool_calls" (.jint 0)
    unique_requesters := jget d "unique_requesters" (.jint 0)
    unique_tools := jget d "unique_tools" (.jint 0)
    calls_by_requester := jget d "calls_by_requester" (.jobj [])
    calls_by_server := jget d "calls_by_server" (.jobj [])
    top_tools := jget d "top_tools" (.jarr []) }

/-- Strategy 2 on one block: the regex fallback, applied only when a report
header triggers.  The sequential mutations of the source are written as one
record: `unique_requesters` reads the requester dict after its update loop,
`unique_tools` reads the accumulated `top_tools` after its append loop, and
no other field depends on another. -/
def legacyStep (rep : MCPToolsReport) (r : String) : MCPToolsReport :=
  if triggersLegacy r then
    let total := match totalMatch r with
      | some n => Json.jint (Int.ofNat n)
      | none => rep.total_tool_calls
    let reqs := (requesterLines r).foldl
      (fun j kv => jobjPut j kv.1 (.jint (Int.ofNat kv.2))) rep.calls_by_requester
    let uniqR := if jTruthy reqs then Json.jint (Int.ofNat (jobjSize reqs))
      else rep.unique_requesters
    let servers := (serverLines r).foldl
      (fun j kv => jobjPut j kv.1 (.jint (Int.ofNat kv.2))) rep.calls_by_server
    let tops := (topToolLines r).foldl
      (fun j kv => jarrAppend j
        (.jobj [("name", .jstr kv.1), ("calls", .jint (Int.ofNat kv.2))])) rep.top_tools
    let uniqT := if jTruthy tops then Json.jint (Int.ofNat (uniqueToolCount tops))
      else rep.unique_tools
    let csv := match csvMatch r with
      | some p => Json.jstr p
      | none => rep.csv_path
    { csv_path := csv
      total_tool_calls := total
      unique_requesters := uniqR
      unique_tools := uniqT
      calls_by_requester := reqs
      calls_by_server := servers
      top_tools := tops }
  else rep

/-- The block loop of `parse_reporter_output`: strategy 1 returns
immediately on the first block whose fenced JSON loads; otherwise the
fallback accumulates into the report and the loop continues. -/
def parseReporterGo (rep : MCPToolsReport) : List String → MCPToolsReport
  | [] => rep
  | r :: rest =>
      match jsonExtract r with
      | some d => reportFromJson d
      | none => parseReporterGo (legacyStep rep r) rest

/-- `parse_reporter_output`: a total function — the only fallible Python
operation it performs, `json.loads`, is modelled as an `Option` and its
failure (`json.JSONDecodeError`) is caught by falling through to the
regex fallback, exactly as in the source. -/
def parse_reporter_output (responses : List String) : MCPToolsReport :=
  parseReporterGo {} responses

/-! ## The decision extractor (`extract_key_decisions`) -/

/-- Pattern 1: a bold `**VERDICT: ...**` line (lazy group, no DOTALL). -/
def verdictBoldRE : RE :=
  reSeqAll
    [.lit false "**VERDICT:".data,
     .star true (.cls wsChar),
     .grp 1 (rePlus false (.cls (fun c => c ≠ '\n'))),
     .lit false "**".data]

/-- The emoji-stripping pattern of pattern 1. -/
def emojiRE : RE :=
  reSeqAll
    [.star true (.cls wsChar),
     .cls (fun c => c = '✅' ∨ c = '❌' ∨ c = '🎯' ∨ c = '⚡'),
     .star true (.cls wsChar)]

/-- The class `[A-Z]`. -/
def upperChar (c : Char) : Bool := 'A' ≤ c ∧ c ≤ 'Z'

/-- Pattern 2: a plain `VERDICT: WORDS` line ended by emoji, newline or
end of input. -/
def verdictPlainRE : RE :=
  reSeqAll
    [.lit false "VERDICT:".data,
     .star true (.cls wsChar),
     .grp 1 (.seq (.cls upperChar) (rePlus false (.cls (fun c => upperChar c ∨ wsChar c)))),
     .alt (reSeqAll [.star true (.cls wsChar), .cls (fun c => c = '✅' ∨ c = '❌')])
       (.alt (.lit false "\n".data) .eos)]

/-- Pattern 3: `**VERDICT**:` / `**Status**:` with an
APPROVE/REJECT marker (IGNORECASE; the alternation order is Python's, so
plain `APPROVE` wins over `APPROVE WITH CONDITIONS`). -/
def approveRE : RE :=
  reSeqAll
    [.lit false "**".data,
     .alt (.lit true "VERDICT".data) (.lit true "Status".data),
     .lit false "**:".data,
     .star true (.cls wsChar),
     .grp 1 (.alt (.lit true "APPROVE".data)
       (.alt (.lit true "REJECT".data) (.lit true "APPROVE WITH CONDITIONS".data)))]

/-- Pattern 4: `STRONGLY AGREE/DISAGREE`, optionally with a confidence
percentage (IGNORECASE, which also widens `[^c]` to exclude both cases). -/
def agreeRE : RE :=
  reSeqAll
    [.lit true "STRONGLY".data,
     rePlus true (.cls wsChar),
     .grp 1 (.alt (.lit true "AGREE".data) (.lit true "DISAGREE".data)),
     .opt true (reSeqAll
       [.star true (.cls (fun c => !c.isDigit)),
        .grp 2 (.seq (rePlus true (.cls Char.isDigit)) (.lit false "%".data)),
        .star true (.cls (fun c => c ≠ 'c' ∧ c ≠ 'C')),
        .lit true "confidence".data])]

/-- Append a non-empty decision that is not already present (the
`if decision and decision not in decisions` guard). -/
def addIfNewNonempty (acc : List String) (v : String) : List String :=
  if v ≠ "" ∧ acc.contains v = false then acc ++ [v] else acc

/-- Append a decision that is not already present (pattern 4's guard has no
emptiness test). -/
def addIfNew (acc : List String) (v : String) : List String :=
  if acc.contains v then acc else acc ++ [v]

/-- Pattern 1 applied to one response. -/
def decisionPass1 (acc : List String) (r : String) : List String :=
  match reSearch verdictBoldRE r.data with
  | some caps =>
      let verdict := pyStrip ⟨capGet caps 1⟩
      let verdict := pyStrip (reSubStr emojiRE "" verdict)
      addIfNewNonempty acc verdict
  | none => acc

/-- Pattern 2 applied to one response. -/
def decisionPass2 (acc : List String) (r : String) : List String :=
  match reSearch verdictPlainRE r.data with
  | some caps => addIfNewNonempty acc (pyStrip ⟨capGet caps 1⟩)
  | none => acc

/-- Pattern 3 applied to one response. -/
def decisionPass3 (acc : List String) (r : String) : List String :=
  match reSearch approveRE r.data with
  | some caps => addIfNewNonempty acc (pyUpper (pyStrip ⟨capGet caps 1⟩))
  | none => acc

/-- Pattern 4 applied to one response. -/
def decisionPass4 (acc : List String) (r : String) : List String :=
  match reSearch agreeRE r.data with
  | some caps =>
      let base := "STRONGLY " ++ pyUpper ⟨capGet caps 1⟩
      let decision :=
        match capGet? caps 2 with
        | some conf => base ++ " (" ++ (⟨conf⟩ : String) ++ " confidence)"
        | none => base
      addIfNew acc decision
  | none => acc

/-- All four patterns on one response, in source order. -/
def decisionStep (acc : List String) (r : String) : List String :=
  decisionPass4 (decisionPass3 (decisionPass2 (decisionPass1 acc r) r) r) r

/-- `extract_key_decisions`: the deduplicating scan over all responses,
truncated to the first 5 decisions. -/
def extract_key_decisions (rs : List String) : List String :=
  (rs.foldl decisionStep []).take 5

/-- The two conflicting fenced JSON blocks of the C3 counterexample: both
parse, and the first parsed block wins. -/
def conflictingJsonBlocks : List String :=
  ["```json\n\x7b\"total_tool_calls\": 1\x7d\n```",
   "```json\n\x7b\"total_tool_calls\": 48, \"unique_tools\": 12\x7d\n```"]

/-! ## Basic lemmas about the list helpers -/

theorem updateLast_concat {α : Type} (l : List α) (a : α) (f : α → α) :
    updateLast (l ++ [a]) f = l ++ [f a] := by
  induction l with
  | nil => rfl
  | cons x l ih =>
      cases l with
      | nil => rfl
      | cons y l' => simpa [updateLast] using ih

theorem updateLast_length {α : Type} (l : List α) (f : α → α) :
    (updateLast l f).length = l.length := by
  rcases List.eq_nil_or_concat l with rfl | ⟨l', a, rfl⟩
  · rfl
  · simp [updateLast_concat]

theorem listModify_length {α : Type} (l : List α) (i : Nat) (f : α → α) :
    (listModify l i f).length = l.length := by
  induction l generalizing i with
  | nil => rfl
  | cons x l ih =>
      cases i with
      | zero => simp [listModify]
      | succ n => simp [listModify, ih]

theorem mem_updateLast {α : Type} {l : List α} {f : α → α} {x : α}
    (hx : x ∈ updateLast l f) : x ∈ l ∨ ∃ y, y ∈ l ∧ x = f y := by
  rcases List.eq_nil_or_concat l with rfl | ⟨l', a, rfl⟩
  · simp [updateLast] at hx
  · rw [List.concat_eq_append] at hx ⊢
    rw [updateLast_concat] at hx
    rcases List.mem_append.mp hx with h | h
    · exact Or.inl (List.mem_append.mpr (Or.inl h))
    · exact Or.inr ⟨a, List.mem_append.mpr (Or.inr (List.mem_singleton.mpr rfl)),
        List.mem_singleton.mp h⟩

theorem mem_listModify {α : Type} {l : List α} {i : Nat} {f : α → α} {x : α}
    (hx : x ∈ listModify l i f) : x ∈ l ∨ ∃ y, y ∈ l ∧ x = f y := by
  induction l generalizing i with
  | nil => simp [listModify] at hx
  | cons a l ih =>
      cases i with
      | zero =>
          simp only [listModify, List.mem_cons] at hx
          rcases hx with h | h
          · exact Or.inr ⟨a, List.mem_cons_self a l, h⟩
          · exact Or.inl (List.mem_cons_of_mem a h)
      | succ n =>
          simp only [listModify, List.mem_cons] at hx
          rcases hx with h | h
          · exact Or.inl (h ▸ List.mem_cons_self a l)
          · rcases ih h with h' | ⟨y, hy, hfy⟩
            · exact Or.inl (List.mem_cons_of_mem a h')
            · exact Or.inr ⟨y, List.mem_cons_of_mem a hy, hfy⟩

theorem foldl_add_map_sum {α : Type} (g : α → Nat) (l : List α) :
    ∀ n : Nat, l.foldl (fun n x => n + g x) n = n + (l.map g).sum := by
  induction l with
  | nil => intro n; simp
  | cons x l ih => intro n; simp [List.foldl_cons, ih, Nat.add_assoc]

theorem updateLast_updateLast {α : Type} (l : List α) (f g : α → α) :
    updateLast (updateLast l f) g = updateLast l (fun x => g (f x)) := by
  rcases List.eq_nil_or_concat l with rfl | ⟨l', a, rfl⟩
  · rfl
  · simp [List.concat_eq_append, updateLast_concat]

/-! ## Shape lemmas about the tracker operations -/

theorem total_subagents_eq (t : AgentActivityTracker) :
    (t.get_session_stats).total_subagent_executions =
      (t.turns.map (fun tu => tu.subagent_executions.length)).sum := by
  simp [AgentActivityTracker.get_session_stats, foldl_add_map_sum]

theorem total_tool_calls_eq (t : AgentActivityTracker) :
    (t.get_session_stats).total_tool_calls =
      (t.turns.map (fun tu => tu.tool_calls.length)).sum := by
  simp [AgentActivityTracker.get_session_stats, foldl_add_map_sum]

theorem end_session_of_nil (t : AgentActivityTracker) (now : String)
    (hc : t.turns = []) : t.end_session now = { t with end_time := some now } := by
  simp [AgentActivityTracker.end_session, hc]

theorem end_session_of_truthy (t : AgentActivityTracker) (now : String)
    (l : List TurnActivity) (a : TurnActivity) (hc : t.turns = l ++ [a])
    (ha : pyTruthyOptStr a.end_time = true) :
    t.end_session now = { t with end_time := some now } := by
  simp [AgentActivityTracker.end_session, hc, List.getLast?_concat, ha]

theorem end_session_of_falsy (t : AgentActivityTracker) (now : String)
    (l : List TurnActivity) (a : TurnActivity) (hc : t.turns = l ++ [a])
    (ha : pyTruthyOptStr a.end_time = false) :
    t.end_session now =
      { t with end_time := some now,
               turns := l ++ [{ a with end_time := some now }] } := by
  simp [AgentActivityTracker.end_session, AgentActivityTracker.end_turn, hc,
    List.getLast?_concat, ha, updateLast_concat]

/-! ## Claim C1 -/

/-- C1 counterexample: `end_session` is not idempotent on `end_time`.  After
`end_session` at one instant, a second `end_session` at a later instant
changes `end_time` — the source re-stamps `end_time` unconditionally (its
only guard checks the current turn's `end_time`, not the session's). -/
theorem end_session_overwrites_end_time_counterexample :
    (((AgentActivityTracker.init "s" "2026-01-01T00:00:00+00:00").end_session
        "2026-01-01T00:05:00+00:00").end_session "2026-01-01T00:09:00+00:00").end_time ≠
      ((AgentActivityTracker.init "s" "2026-01-01T00:00:00+00:00").end_session
        "2026-01-01T00:05:00+00:00").end_time := by
  decide

/-- C1 (amended): a second `end_session` call does not corrupt the rest of
the state — it leaves the turns (in particular every turn's `end_time`)
unchanged — but it re-stamps the session `end_time` with the later call's
timestamp, so `end_time` is only unchanged when both calls observe the same
clock value. -/
theorem end_session_second_call_effect (t : AgentActivityTracker)
    (n1 n2 : String) (h : n1 ≠ "") :
    (t.end_session n1).end_session n2 =
      { t.end_session n1 with end_time := some n2 } := by
  rcases List.eq_nil_or_concat t.turns with hnil | ⟨l, a, hc⟩
  · rw [end_session_of_nil t n1 hnil]
    exact end_session_of_nil _ n2 hnil
  · rw [List.concat_eq_append] at hc
    by_cases ha : pyTruthyOptStr a.end_time = true
    · rw [end_session_of_truthy t n1 l a hc ha]
      exact end_session_of_truthy _ n2 l a hc ha
    · rw [end_session_of_falsy t n1 l a hc (Bool.not_eq_true _ ▸ ha)]
      exact end_session_of_truthy _ n2 l { a with end_time := some n1 } rfl
        (by simp [pyTruthyOptStr, h])

/-- C1 witness: the amended statement at a concrete state and timestamps. -/
theorem end_session_second_call_effect_witness :
    ((AgentActivityTracker.init "w" "2026-01-01T00:00:00+00:00").end_session
        "2026-01-01T00:01:00+00:00").end_session "2026-01-01T00:02:00+00:00" =
      { (AgentActivityTracker.init "w" "2026-01-01T00:00:00+00:00").end_session
          "2026-01-01T00:01:00+00:00" with end_time := some "2026-01-01T00:02:00+00:00" } :=
  end_session_second_call_effect (AgentActivityTracker.init "w" "2026-01-01T00:00:00+00:00")
    "2026-01-01T00:01:00+00:00" "2026-01-01T00:02:00+00:00" (by decide)

/-! ## Claim C5 -/

/-- C5 counterexample: in the end-to-end scenario there is exactly one
trading action, but its `type` is not `"spot_market_order"`: only the
`"mcp__binance__"` prefix is stripped from
`"mcp__binance__binance_spot_market_order"`, leaving
`"binance_spot_market_order"`. -/
theorem end_to_end_type_counterexample :
    (endToEndTracker.get_trading_actions).length = 1 ∧
    (endToEndTracker.get_trading_actions).map TradingActionOut.type ≠
      ["spot_market_order"] := by
  decide

/-- C5 (amended): the end-to-end scenario yields `total_tool_calls = 4`,
`total_subagent_executions = 1`, and exactly one trading action, whose
`type` is `"binance_spot_market_order"` (the allow-list name with the
`"mcp__binance__"` prefix stripped). -/
theorem end_to_end_scenario :
    (endToEndTracker.get_session_stats).total_tool_calls = 4 ∧
    (endToEndTracker.get_session_stats).total_subagent_executions = 1 ∧
    endToEndTracker.get_trading_actions =
      [{ type := "binance_spot_market_order",
         timestamp := "2026-01-01T00:00:08+00:00", tool_id := "tc4", turn_number := 2 }] := by
  decide

/-! ## Claim C9 -/

/-- C9 counterexample: a `"Task"` call whose `tool_input` is the empty dict
opens no `SubagentExecution` at all (and leaves no pending entry): the
source guards on `tool_input`'s truthiness and `{}` is falsy. -/
theorem task_empty_input_counterexample :
    (((AgentActivityTracker.init "s" "2026-01-01T00:00:00+00:00").record_tool_call
        "Task" "id1" (some []) "2026-01-01T00:00:01+00:00").get_session_stats).total_subagent_executions
      = 0 ∧
    ((AgentActivityTracker.init "s" "2026-01-01T00:00:00+00:00").record_tool_call
        "Task" "id1" (some []) "2026-01-01T00:00:01+00:00").pending_subagents = [] := by
  decide

/-- C9 (amended): a `"Task"` call whose `tool_input` is a NON-empty dict
omitting `subagent_type` and `description` still opens one
`SubagentExecution`, defaulting `subagent_type` to `"unknown"` and
`task_description` to the empty string; with an empty dict (or `None`) the
truthiness guard skips the delegation tracking entirely. -/
theorem task_missing_fields_defaults (t : AgentActivityTracker) (id now : String)
    (input : PyDict) (hne : input ≠ [])
    (hs : input.find? (fun e => e.1 == "subagent_type") = none)
    (hd : input.find? (fun e => e.1 == "description") = none) :
    ((t.record_tool_call "Task" id (some input) now).get_session_stats).total_subagent_executions
        = (t.get_session_stats).total_subagent_executions + 1 ∧
    ((t.record_tool_call "Task" id (some input) now).turns.getLast?.bind
        (fun tu => tu.subagent_executions.getLast?)) =
      some { subagent_type := "unknown", task_description := "", start_time := now } := by
  have hti : pyTruthyOptDict (some input) = true := by
    cases input with
    | nil => exact absurd rfl hne
    | cons x l => simp [pyTruthyOptDict]
  have hsub : pyGetStr input "subagent_type" "unknown" = "unknown" := by
    simp [pyGetStr, hs]
  have hdesc : pyGetStr input "description" "" = "" := by
    simp [pyGetStr, hd]
  rcases List.eq_nil_or_concat t.turns with hnil | ⟨l, a, hc⟩
  · constructor
    · simp [total_subagents_eq, AgentActivityTracker.record_tool_call, hnil, hti,
        AgentActivityTracker.start_turn, updateLast, hsub, hdesc,
        TurnActivity.add_subagent_execution, TurnActivity.add_tool_call]
    · simp [AgentActivityTracker.record_tool_call, hnil, hti,
        AgentActivityTracker.start_turn, updateLast, hsub, hdesc,
        TurnActivity.add_subagent_execution, TurnActivity.add_tool_call]
  · rw [List.concat_eq_append] at hc
    have hne' : t.turns.isEmpty = false := by simp [hc]
    constructor
    · simp [total_subagents_eq, AgentActivityTracker.record_tool_call, hc, hne', hti,
        updateLast_concat, updateLast_updateLast, hsub, hdesc,
        TurnActivity.add_subagent_execution, TurnActivity.add_tool_call, Nat.add_assoc]
    · simp [AgentActivityTracker.record_tool_call, hc, hne', hti,
        updateLast_concat, updateLast_updateLast, hsub, hdesc,
        TurnActivity.add_subagent_execution, TurnActivity.add_tool_call,
        List.getLast?_concat]

/-! ## Turn-count bookkeeping over operation sequences -/

theorem isEmpty_concat {α : Type} (l : List α) (a : α) : (l ++ [a]).isEmpty = false := by
  cases l <;> rfl

theorem isEmpty_eq_of_length_eq {α : Type} {l1 l2 : List α} (h : l1.length = l2.length) :
    l1.isEmpty = l2.isEmpty := by
  cases l1 <;> cases l2 <;> simp_all

theorem applyOp_turns_length (t : AgentActivityTracker) (op : Op) :
    (applyOp t op).turns.length =
      t.turns.length +
        (if op.isStart then 1
         else if op.isRecord && t.turns.isEmpty then 1 else 0) := by
  cases op with
  | opStartTurn n now => simp [applyOp, AgentActivityTracker.start_turn, Op.isStart]
  | opEndTurn now =>
      simp only [applyOp, AgentActivityTracker.end_turn, Op.isStart, Op.isRecord]
      cases h : t.turns.getLast? <;> simp [updateLast_length]
  | opRecordToolCall name id input now =>
      simp only [applyOp, AgentActivityTracker.record_tool_call, Op.isStart, Op.isRecord]
      by_cases he : t.turns.isEmpty = true <;>
        by_cases hcond : (name = "Task" ∧ pyTruthyOptDict input = true) <;>
          simp [he, hcond, updateLast_length, AgentActivityTracker.start_turn]
  | opRecordToolResult id res e now =>
      simp only [applyOp, AgentActivityTracker.record_tool_result, Op.isStart, Op.isRecord]
      rcases h : t.pending_subagents.find? (fun e => e.1 == id) with _ | ⟨k, ti, ei⟩ <;>
        simp [h, listModify_length]
  | opEndSession now =>
      simp only [applyOp, AgentActivityTracker.end_session, Op.isStart, Op.isRecord]
      rcases h : t.turns.getLast? with _ | tu
      · simp
      · by_cases htr : pyTruthyOptStr tu.end_time = true
        · simp [htr]
        · simp [h, htr, AgentActivityTracker.end_turn, updateLast_length]

theorem applyOp_turns_isEmpty (t : AgentActivityTracker) (op : Op) :
    (applyOp t op).turns.isEmpty = (t.turns.isEmpty && !(op.isStart || op.isRecord)) := by
  cases op with
  | opStartTurn n now =>
      simp [applyOp, AgentActivityTracker.start_turn, Op.isStart, Op.isRecord, isEmpty_concat]
  | opEndTurn now =>
      have h := applyOp_turns_length t (.opEndTurn now)
      simp only [Op.isStart, Op.isRecord] at h ⊢
      simp only [Bool.or_false, applyOp] at h ⊢
      rw [isEmpty_eq_of_length_eq (by simpa using h)]
      simp
  | opRecordToolCall name id input now =>
      simp only [applyOp, AgentActivityTracker.record_tool_call, Op.isStart, Op.isRecord]
      by_cases he : t.turns.isEmpty = true
      · have hnil : t.turns = [] := List.isEmpty_iff.mp he
        by_cases hcond : (name = "Task" ∧ pyTruthyOptDict input = true) <;>
          simp [hnil, hcond, AgentActivityTracker.start_turn, updateLast]
      · rcases List.eq_nil_or_concat t.turns with hnil | ⟨l, a, hc⟩
        · simp [hnil] at he
        · rw [List.concat_eq_append] at hc
          by_cases hcond : (name = "Task" ∧ pyTruthyOptDict input = true) <;>
            simp [hc, he, hcond, updateLast_concat, updateLast_updateLast, isEmpty_concat]
  | opRecordToolResult id res e now =>
      simp only [applyOp, AgentActivityTracker.record_tool_result, Op.isStart, Op.isRecord]
      rcases h : t.pending_subagents.find? (fun e => e.1 == id) with _ | ⟨k, ti, ei⟩
      · simp [h]
      · simp only [h, Bool.or_false, Bool.not_false, Bool.and_true]
        exact isEmpty_eq_of_length_eq (by simp [listModify_length])
  | opEndSession now =>
      simp only [applyOp, AgentActivityTracker.end_session, Op.isStart, Op.isRecord]
      rcases h : t.turns.getLast? with _ | tu
      · have hnil : t.turns = [] := List.getLast?_eq_none_iff.mp h
        simp [hnil]
      · rcases List.eq_nil_or_concat t.turns with hnil | ⟨l, a, hc⟩
        · rw [hnil] at h; simp at h
        · rw [List.concat_eq_append] at hc
          by_cases htr : pyTruthyOptStr tu.end_time = true <;>
            simp [hc, htr, AgentActivityTracker.end_turn, updateLast_concat,
              List.getLast?_concat, isEmpty_concat]

theorem runOps_turns_length (ops : List Op) : ∀ t : AgentActivityTracker,
    (runOps t ops).turns.length =
      t.turns.length + countStartTurns ops +
        (if t.turns.isEmpty then autoCreates ops else 0) := by
  induction ops with
  | nil => intro t; simp [runOps, countStartTurns, autoCreates]
  | cons op rest ih =>
      intro t
      have hstep : runOps t (op :: rest) = runOps (applyOp t op) rest := rfl
      rw [hstep, ih (applyOp t op), applyOp_turns_length, applyOp_turns_isEmpty]
      have hcount : countStartTurns (op :: rest) =
          (if op.isStart then 1 else 0) + countStartTurns rest := by
        simp [countStartTurns, List.countP_cons]
        cases op <;> simp [Op.isStart] <;> omega
      have hauto : autoCreates (op :: rest) =
          if op.isStart || op.isRecord then (if op.isRecord then 1 else 0)
          else autoCreates rest := by
        simp only [autoCreates, List.find?]
        cases hb : (op.isStart || op.isRecord) <;> simp [hb]
      rw [hcount, hauto]
      cases op <;> cases he : t.turns.isEmpty <;>
        simp_all [Op.isStart, Op.isRecord] <;> omega

theorem total_turns_eq (t : AgentActivityTracker) :
    (t.get_session_stats).total_turns = t.turns.length := rfl

/-! ## Claim C6 -/

/-- C6: over any sequence of `start_turn` / `record_tool_call` / `end_turn`
operations, `get_session_stats` reports `total_tool_calls` equal to the sum
of the `tool_calls` lengths over all turns, and `total_turns` equal to the
number of `start_turn` calls plus the auto-created turn (which is created,
with turn number 1, exactly when a tool call is recorded before any
`start_turn`). -/
theorem session_stats_totals (sid t0 : String) (ops : List Op)
    (hbasic : ∀ op ∈ ops, op.isBasic = true) :
    ((runOps (.init sid t0) ops).get_session_stats).total_tool_calls
        = sumToolCallsOverTurns (runOps (.init sid t0) ops) ∧
    ((runOps (.init sid t0) ops).get_session_stats).total_turns
        = countStartTurns ops + autoCreates ops ∧
    (∀ (t : AgentActivityTracker) (name id : String) (input : Option PyDict) (now : String),
      t.turns = [] →
      ((t.record_tool_call name id input now).turns.map (fun tu => tu.turn_number)) = [1]) := by
  refine ⟨?_, ?_, ?_⟩
  · rw [total_tool_calls_eq]; rfl
  · rw [total_turns_eq, runOps_turns_length]
    simp [AgentActivityTracker.init]
  · intro t name id input now hnil
    by_cases hcond : (name = "Task" ∧ pyTruthyOptDict input = true) <;>
      simp [AgentActivityTracker.record_tool_call, hnil, hcond,
        AgentActivityTracker.start_turn, updateLast,
        TurnActivity.add_subagent_execution, TurnActivity.add_tool_call]

/-- C6 witness: the turn-count equation at a concrete basic-operation
sequence. -/
theorem session_stats_totals_witness :
    ((runOps (.init "w6" "2026-02-01T00:00:00+00:00") basicOpsSample).get_session_stats).total_turns
      = countStartTurns basicOpsSample + autoCreates basicOpsSample :=
  (session_stats_totals "w6" "2026-02-01T00:00:00+00:00" basicOpsSample (by decide)).2.1

/-! ## Claim C7 -/

theorem find?_eraseP_none {β : Type} (l : List (String × β)) (id : String)
    (hnd : (l.map Prod.fst).Nodup) :
    (l.eraseP (fun e => e.1 == id)).find? (fun e => e.1 == id) = none := by
  induction l with
  | nil => rfl
  | cons x rest ih =>
      rcases x with ⟨k, v⟩
      simp only [List.map_cons, List.nodup_cons] at hnd
      by_cases hk : k == id
      · rw [List.eraseP_cons_of_pos (by simpa using hk)]
        rw [List.find?_eq_none]
        intro e he
        have hke : e.1 ≠ k := by
          intro hek
          exact hnd.1 (hek ▸ (List.mem_map.mpr ⟨e, he, rfl⟩))
        simpa using fun hcontra => hke (by
          have h1 : e.1 = id := by simpa using hcontra
          have h2 : k = id := by simpa using hk
          rw [h1, h2])
      · rw [List.eraseP_cons_of_neg (by simpa using hk)]
        rw [List.find?_cons_of_neg _ (by simpa using hk)]
        exact ih hnd.2

/-- C7: `record_tool_result` on an unknown `tool_id` is a no-op; on a
pending `tool_id` it closes exactly the one referenced execution (setting
`end_time`, extracting `duration_ms`/`usage`/`total_cost_usd` and a
200-character-truncated summary from a dict-shaped result, or truncating a
string-shaped result to 200 characters) and removes the pending entry, so a
second call with the same `tool_id` is a no-op. -/
theorem record_tool_result_spec (t : AgentActivityTracker) (id : String)
    (res : PyVal) (err : Bool) (now : String) :
    (t.pending_subagents.find? (fun e => e.1 == id) = none →
        t.record_tool_result id res err now = t) ∧
    (∀ (k : String) (ti ei : Nat),
        t.pending_subagents.find? (fun e => e.1 == id) = some (k, ti, ei) →
        (t.record_tool_result id res err now =
          { t with
            turns := listModify t.turns ti (AgentActivityTracker.closeExecutionAt res now ei),
            pending_subagents := t.pending_subagents.eraseP (fun e => e.1 == id) }) ∧
        ((t.pending_subagents.map Prod.fst).Nodup →
          ∀ (res' : PyVal) (err' : Bool) (now' : String),
            (t.record_tool_result id res err now).record_tool_result id res' err' now' =
              t.record_tool_result id res err now)) ∧
    (∀ ex : SubagentExecution,
        (AgentActivityTracker.updateExecution res now ex).end_time = some now) ∧
    (∀ (d : PyDict) (ex : SubagentExecution), res = .vdict d →
        AgentActivityTracker.updateExecution res now ex =
          { ex with
            end_time := some now,
            duration_ms := pyGet d "duration_ms" .vnone,
            usage := pyGet d "usage" .vnone,
            total_cost_usd := pyGet d "total_cost_usd" .vnone,
            result_summary := some ((pyStr (pyGet d "result" (.vstr ""))).take 200) }) ∧
    (∀ (s : String) (ex : SubagentExecution), res = .vstr s →
        AgentActivityTracker.updateExecution res now ex =
          { ex with
            end_time := some now,
            result_summary := some (s.take 200) }) := by
  refine ⟨?_, ?_, ?_, ?_, ?_⟩
  · intro h
    simp [AgentActivityTracker.record_tool_result, h]
  · intro k ti ei h
    constructor
    · simp [AgentActivityTracker.record_tool_result, h]
    · intro hnd res' err' now'
      have hnone : ((t.record_tool_result id res err now).pending_subagents.find?
          (fun e => e.1 == id)) = none := by
        simp only [AgentActivityTracker.record_tool_result, h]
        exact find?_eraseP_none t.pending_subagents id hnd
      conv_lhs => rw [AgentActivityTracker.record_tool_result]
      rw [hnone]
  · intro ex
    cases res <;> rfl
  · intro d ex hres
    subst hres
    rfl
  · intro s ex hres
    subst hres
    rfl

/-- C7 witness: on a tracker with the pending delegation `"x1"`, the first
result closes it, a duplicate result is a no-op, and a result for an
untracked id is a no-op. -/
theorem record_tool_result_spec_witness :
    ((pendingScenarioTracker.record_tool_result "x1" (.vstr "all done") false
        "2026-01-01T00:00:02+00:00").record_tool_result "x1" (.vstr "late") false
        "2026-01-01T00:00:03+00:00" =
      pendingScenarioTracker.record_tool_result "x1" (.vstr "all done") false
        "2026-01-01T00:00:02+00:00") ∧
    pendingScenarioTracker.record_tool_result "zz" (.vstr "q") false
        "2026-01-01T00:00:04+00:00" = pendingScenarioTracker :=
  ⟨((record_tool_result_spec pendingScenarioTracker "x1" (.vstr "all done") false
      "2026-01-01T00:00:02+00:00").2.1 "x1" 0 0 rfl).2 (by decide)
      (.vstr "late") false "2026-01-01T00:00:03+00:00",
   (record_tool_result_spec pendingScenarioTracker "zz" (.vstr "q") false
      "2026-01-01T00:00:04+00:00").1 rfl⟩

/-! ## Claim C10 -/

theorem turnOk_fresh (n : Int) (now : String) :
    TurnOk { turn_number := n, start_time := now } := by
  simp [TurnOk]

theorem turnOk_end_time (tu : TurnActivity) (now : String) (h : TurnOk tu) :
    TurnOk { tu with end_time := some now } := h

theorem turnOk_addcall (a : TurnActivity) (name id now : String) (h : TurnOk a) :
    TurnOk (a.add_tool_call name id now) := by
  simp only [TurnOk, TurnActivity.add_tool_call, List.countP_append]
  exact Nat.le_trans h (Nat.le_add_right _ _)

theorem turnOk_addcall_task (a : TurnActivity) (ty desc id now now' : String)
    (h : TurnOk a) :
    TurnOk ((a.add_subagent_execution ty desc now).add_tool_call "Task" id now') := by
  simp only [TurnOk] at h
  simp only [TurnOk, TurnActivity.add_tool_call, TurnActivity.add_subagent_execution,
    List.countP_append, List.length_append]
  simp [List.countP_cons]
  omega

theorem turnOk_closeExecutionAt (res : PyVal) (now : String) (ei : Nat)
    (tu : TurnActivity) (h : TurnOk tu) :
    TurnOk (AgentActivityTracker.closeExecutionAt res now ei tu) := by
  simp only [TurnOk, AgentActivityTracker.closeExecutionAt, listModify_length]
  exact h

theorem record_tool_call_preserves_turnOk (t : AgentActivityTracker)
    (name id : String) (input : Option PyDict) (now : String)
    (hInv : ∀ tu ∈ t.turns, TurnOk tu) :
    ∀ tu ∈ (t.record_tool_call name id input now).turns, TurnOk tu := by
  rcases List.eq_nil_or_concat t.turns with hnil | ⟨l, a, hc⟩
  · by_cases hcond : (name = "Task" ∧ pyTruthyOptDict input = true)
    · obtain ⟨hname, htruthy⟩ := hcond
      subst hname
      intro tu htu
      simp only [AgentActivityTracker.record_tool_call, hnil, List.isEmpty_nil,
        if_true, AgentActivityTracker.start_turn, List.nil_append, htruthy,
        and_self, if_pos, updateLast, List.mem_singleton] at htu
      subst htu
      exact turnOk_addcall_task _ _ _ _ _ _ (turnOk_fresh _ _)
    · intro tu htu
      simp only [AgentActivityTracker.record_tool_call, hnil, List.isEmpty_nil,
        if_true, AgentActivityTracker.start_turn, List.nil_append,
        if_neg hcond, updateLast, List.mem_singleton] at htu
      subst htu
      exact turnOk_addcall _ _ _ _ (turnOk_fresh _ _)
  · rw [List.concat_eq_append] at hc
    by_cases hcond : (name = "Task" ∧ pyTruthyOptDict input = true)
    · obtain ⟨hname, htruthy⟩ := hcond
      subst hname
      intro tu htu
      simp [AgentActivityTracker.record_tool_call, hc, isEmpty_concat, htruthy,
        updateLast_concat, updateLast_updateLast] at htu
      rcases htu with h | h
      · exact hInv tu (hc ▸ List.mem_append.mpr (Or.inl h))
      · subst h
        exact turnOk_addcall_task _ _ _ _ _ _
          (hInv a (hc ▸ List.mem_append.mpr (Or.inr (List.mem_singleton.mpr rfl))))
    · intro tu htu
      simp [AgentActivityTracker.record_tool_call, hc, isEmpty_concat, hcond,
        updateLast_concat] at htu
      rcases htu with h | h
      · exact hInv tu (hc ▸ List.mem_append.mpr (Or.inl h))
      · subst h
        exact turnOk_addcall _ _ _ _
          (hInv a (hc ▸ List.mem_append.mpr (Or.inr (List.mem_singleton.mpr rfl))))

theorem applyOp_preserves_turnOk (t : AgentActivityTracker) (op : Op)
    (hInv : ∀ tu ∈ t.turns, TurnOk tu) :
    ∀ tu ∈ (applyOp t op).turns, TurnOk tu := by
  cases op with
  | opStartTurn n now =>
      intro tu htu
      simp only [applyOp, AgentActivityTracker.start_turn, List.mem_append,
        List.mem_singleton] at htu
      rcases htu with h | h
      · exact hInv tu h
      · subst h; exact turnOk_fresh _ _
  | opEndTurn now =>
      intro tu htu
      simp only [applyOp, AgentActivityTracker.end_turn] at htu
      rcases hg : t.turns.getLast? with _ | a
      · simp only [hg] at htu; exact hInv tu htu
      · simp only [hg] at htu
        rcases mem_updateLast htu with h | ⟨y, hy, hxy⟩
        · exact hInv tu h
        · subst hxy; exact turnOk_end_time y now (hInv y hy)
  | opRecordToolCall name id input now =>
      exact record_tool_call_preserves_turnOk t name id input now hInv
  | opRecordToolResult id res e now =>
      intro tu htu
      simp only [applyOp, AgentActivityTracker.record_tool_result] at htu
      rcases hf : t.pending_subagents.find? (fun e => e.1 == id) with _ | ⟨k, ti, ei⟩
      · simp only [hf] at htu; exact hInv tu htu
      · simp only [hf] at htu
        rcases mem_listModify htu with h | ⟨y, hy, hxy⟩
        · exact hInv tu h
        · subst hxy; exact turnOk_closeExecutionAt res now ei y (hInv y hy)
  | opEndSession now =>
      intro tu htu
      simp only [applyOp, AgentActivityTracker.end_session] at htu
      rcases hg : t.turns.getLast? with _ | a
      · simp only [hg] at htu; exact hInv tu htu
      · simp only [hg] at htu
        by_cases htr : pyTruthyOptStr a.end_time = true
        · rw [if_pos htr] at htu; exact hInv tu htu
        · rw [if_neg htr] at htu
          simp only [AgentActivityTracker.end_turn, hg] at htu
          rcases mem_updateLast htu with h | ⟨y, hy, hxy⟩
          · exact hInv tu h
          · subst hxy; exact turnOk_end_time y now (hInv y hy)

theorem record_tool_call_appends_main (t : AgentActivityTracker)
    (name id : String) (input : Option PyDict) (now : String) :
    ((t.record_tool_call name id input now).turns.getLast?.bind
        (fun tu => tu.tool_calls.getLast?)) =
      some { tool_name := name, tool_id := id, timestamp := now, agent := "main" } := by
  rcases List.eq_nil_or_concat t.turns with hnil | ⟨l, a, hc⟩
  · by_cases hcond : (name = "Task" ∧ pyTruthyOptDict input = true) <;>
      simp [AgentActivityTracker.record_tool_call, hnil, hcond,
        AgentActivityTracker.start_turn, updateLast, TurnActivity.add_tool_call,
        List.getLast?_concat]
  · rw [List.concat_eq_append] at hc
    by_cases hcond : (name = "Task" ∧ pyTruthyOptDict input = true) <;>
      simp [AgentActivityTracker.record_tool_call, hc, isEmpty_concat, hcond,
        updateLast_concat, updateLast_updateLast, TurnActivity.add_tool_call,
        List.getLast?_concat]

/-- C10: in every state reachable by the public operations, each turn holds
at most as many `SubagentExecution`s as `"Task"`-named tool calls, because
every delegation also appends an ordinary `ToolCall` under agent `"main"`
(the second conjunct: the appended call is always the last tool call of the
last turn, with agent `"main"`). -/
theorem subagent_leq_task_calls_invariant (sid t0 : String) (ops : List Op) :
    (∀ tu ∈ (runOps (.init sid t0) ops).turns, TurnOk tu) ∧
    (∀ (t : AgentActivityTracker) (name id : String) (input : Option PyDict) (now : String),
      ((t.record_tool_call name id input now).turns.getLast?.bind
          (fun tu => tu.tool_calls.getLast?)) =
        some { tool_name := name, tool_id := id, timestamp := now, agent := "main" }) := by
  constructor
  · have hrun : ∀ (ops' : List Op) (t : AgentActivityTracker),
        (∀ tu ∈ t.turns, TurnOk tu) → ∀ tu ∈ (runOps t ops').turns, TurnOk tu := by
      intro ops'
      induction ops' with
      | nil => intro t h; simpa [runOps] using h
      | cons op rest ih =>
          intro t h
          exact ih (applyOp t op) (applyOp_preserves_turnOk t op h)
    exact hrun ops _ (by simp [AgentActivityTracker.init])
  · exact record_tool_call_appends_main

/-- C10 witness: the invariant at the concrete single-delegation run. -/
theorem subagent_leq_task_calls_invariant_witness :
    delegationTurn ∈ (runOps (.init "w10" "2026-03-01T00:00:00+00:00")
        delegationOpsSample).turns ∧
    TurnOk delegationTurn :=
  have hmem : delegationTurn ∈ (runOps (.init "w10" "2026-03-01T00:00:00+00:00")
      delegationOpsSample).turns := List.Mem.head _
  ⟨hmem, (subagent_leq_task_calls_invariant "w10" "2026-03-01T00:00:00+00:00"
      delegationOpsSample).1 delegationTurn hmem⟩

/-- C9 witness: the amended statement at a concrete tracker and a concrete
non-empty input dict that carries neither `subagent_type` nor
`description`. -/
theorem task_missing_fields_defaults_witness :
    (((AgentActivityTracker.init "w" "2026-01-01T00:00:00+00:00").record_tool_call
        "Task" "id9" (some [("prompt", .vstr "go")])
        "2026-01-01T00:00:01+00:00").get_session_stats).total_subagent_executions
      = ((AgentActivityTracker.init "w" "2026-01-01T00:00:00+00:00").get_session_stats).total_subagent_executions
          + 1 ∧
    (((AgentActivityTracker.init "w" "2026-01-01T00:00:00+00:00").record_tool_call
        "Task" "id9" (some [("prompt", .vstr "go")])
        "2026-01-01T00:00:01+00:00").turns.getLast?.bind
        (fun tu => tu.subagent_executions.getLast?)) =
      some { subagent_type := "unknown", task_description := "",
             start_time := "2026-01-01T00:00:01+00:00" } :=
  task_missing_fields_defaults (AgentActivityTracker.init "w" "2026-01-01T00:00:00+00:00")
    "id9" "2026-01-01T00:00:01+00:00" [("prompt", .vstr "go")]
    (List.cons_ne_nil _ _) rfl rfl

end TradingAgent
